import Mathlib

/-!
Verification of the tinytls / tinytls13 TLS 1.3 client core.

The development shallowly embeds the handshake engine of
`src/tinytls/__init__.py` (and the line-for-line identical engine of
`src/tinytls13/tlssocket.py`): the connection context, the key schedule,
the post-ServerHello handshake loop, record encryption, and the
application-data receive path.  Byte strings are `List Nat`.

The helper modules of the repository (`protocol`, `hkdf`, `utils`,
`chacha20poly1305`, `x25519`) are not part of the sources under
verification; the definitions taken from them are modelled from the
specification and documented as such.  The cryptographic primitives
SHA-256 and HMAC-SHA-256 and the AEAD are treated as parameters, since
everything proved here holds for every choice of primitive.
-/

namespace TinyTLS

abbrev Bytes := List Nat

/-- Modelled from the spec: big-endian fixed-width integer encoding
(`utils.bint_to_bytes`, used for the uint16/uint24 fields; the `utils`
module is not under src). -/
def bint_to_bytes (n size : Nat) : Bytes :=
  (List.range size).map (fun i => n / 256 ^ (size - 1 - i) % 256)

/-- Modelled from the spec: big-endian integer decoding
(`utils.bytes_to_bint`, not under src). -/
def bytes_to_bint (b : Bytes) : Nat :=
  b.foldl (fun acc x => acc * 256 + x) 0

/-- Modelled from the spec: `utils.pad16(n)` returns the zero padding that
brings a buffer of length `n` to the next 16-byte boundary ("padded to a
multiple of 16 bytes"; the `utils` module is not under src). -/
def pad16 (n : Nat) : Bytes :=
  List.replicate ((16 - n % 16) % 16) 0

/-- Modelled from the spec: the hash and MAC primitives ("SHA-256,
HMAC-SHA-256.  Standard."), which come from library modules not under
src.  The whole development is parameterized over them. -/
structure Crypto where
  sha256 : Bytes → Bytes
  hmac : Bytes → Bytes → Bytes

/-- Modelled from the spec: the block iteration of RFC 5869 HKDF-Expand
(`tinytls.hkdf`, not under src). -/
def hkdf_expand_aux (cr : Crypto) (prk info : Bytes) : Nat → Nat → Bytes → Bytes
  | 0, _, _ => []
  | k + 1, i, t =>
    let tNext := cr.hmac prk (t ++ info ++ [i])
    tNext ++ hkdf_expand_aux cr prk info k (i + 1) tNext

/-- Modelled from the spec: RFC 5869 HKDF-Expand (`tinytls.hkdf`, not
under src). -/
def hkdf_expand (cr : Crypto) (prk info : Bytes) (length : Nat) : Bytes :=
  (hkdf_expand_aux cr prk info ((length + 31) / 32) 1 []).take length

/-- ASCII bytes of the label guard string "tls13 ". -/
def tls13_label : Bytes := [116, 108, 115, 49, 51, 32]

/-- Modelled from the spec: HKDF-Expand-Label (`tinytls.hkdf`, not under
src).  HkdfLabel = uint16(length) || opaque "tls13 "+label || opaque
context. -/
def HKDF_expand_label (cr : Crypto) (secret label context : Bytes) (length : Nat) : Bytes :=
  let full := tls13_label ++ label
  let info := bint_to_bytes length 2 ++ [full.length] ++ full ++ [context.length] ++ context
  hkdf_expand cr secret info length

/-- Modelled from the spec: Derive-Secret(secret, label, messages) =
HKDF-Expand-Label(secret, label, SHA-256(messages), 32) (`tinytls.hkdf`,
not under src). -/
def derive_secret (cr : Crypto) (secret label messages : Bytes) : Bytes :=
  HKDF_expand_label cr secret label (cr.sha256 messages) 32

/-- ASCII bytes of the label "key". -/
def key_label : Bytes := [107, 101, 121]

/-- ASCII bytes of the label "iv". -/
def iv_label : Bytes := [105, 118]

/-- Modelled from the spec: traffic key/IV derivation
(`hkdf.gen_key_and_iv`, not under src): key = Expand-Label(secret, "key",
"", 32), iv = Expand-Label(secret, "iv", "", 12). -/
def gen_key_and_iv (cr : Crypto) (secret : Bytes) : Bytes × Bytes :=
  (HKDF_expand_label cr secret key_label [] 32, HKDF_expand_label cr secret iv_label [] 12)

/-- ASCII bytes of the label "derived". -/
def derived_label : Bytes := [100, 101, 114, 105, 118, 101, 100]

/-- ASCII bytes of the label "finished". -/
def finished_label : Bytes := [102, 105, 110, 105, 115, 104, 101, 100]

/-- ASCII bytes of the label "c hs traffic". -/
def c_hs_label : Bytes := [99, 32, 104, 115, 32, 116, 114, 97, 102, 102, 105, 99]

/-- ASCII bytes of the label "s hs traffic". -/
def s_hs_label : Bytes := [115, 32, 104, 115, 32, 116, 114, 97, 102, 102, 105, 99]

/-- ASCII bytes of the label "c ap traffic". -/
def c_ap_label : Bytes := [99, 32, 97, 112, 32, 116, 114, 97, 102, 102, 105, 99]

/-- ASCII bytes of the label "s ap traffic". -/
def s_ap_label : Bytes := [115, 32, 97, 112, 32, 116, 114, 97, 102, 102, 105, 99]

/-- Modelled from the spec: record content types and constants of the
`protocol` module (not under src): handshake=22, alert=21,
change_cipher_spec=20, application_data=23, legacy version 0x0303,
handshake message types server_hello=0x02 and finished=0x14, alert
description close_notify=0x00 and handshake_failure=0x28. -/
def handshakeCT : Bytes := [22]

/-- Record content type alert (21), see `handshakeCT`. -/
def alertCT : Bytes := [21]

/-- Record content type change_cipher_spec (20), see `handshakeCT`. -/
def change_cipher_specCT : Bytes := [20]

/-- Record content type application_data (23), see `handshakeCT`. -/
def application_dataCT : Bytes := [23]

/-- Legacy record version 0x0303, see `handshakeCT`. -/
def TLS12 : Bytes := [3, 3]

/-- Handshake message type server_hello (0x02), see `handshakeCT`. -/
def server_helloType : Bytes := [2]

/-- Handshake message type finished (0x14), see `handshakeCT`. -/
def finishedType : Bytes := [20]

/-- Alert description close_notify (0x00), see `handshakeCT`. -/
def close_notify : Bytes := [0]

/-- Alert description handshake_failure (0x28), see `handshakeCT`. -/
def handshake_failure_desc : Bytes := [40]

/-- Zero byte string of length 32 (`b'\x00' * 32` in the source). -/
def Z32 : Bytes := List.replicate 32 0

/-- The connection context of `TLSContext` in `src/tinytls/__init__.py`:
the transcript message list, the X25519 results, and the derived secrets
and traffic key/IV pairs.  Secrets are `Option`s: `none` means the
attribute has not been assigned yet (in Python it does not exist before
assignment). -/
structure TLSContext where
  client_private : Bytes
  messages : List Bytes
  shared_key : Option Bytes
  early_secret : Option Bytes
  handshake_secret : Option Bytes
  master_secret : Option Bytes
  client_hs_traffic_secret : Option Bytes
  server_hs_traffic_secret : Option Bytes
  client_app_traffic_secret : Option Bytes
  server_app_traffic_secret : Option Bytes
  client_hs_key_iv : Option (Bytes × Bytes)
  server_hs_key_iv : Option (Bytes × Bytes)
  client_app_key_iv : Option (Bytes × Bytes)
  server_app_key_iv : Option (Bytes × Bytes)
deriving DecidableEq

/-- `TLSContext.__init__`: only the private key and the empty transcript
exist; no secret is assigned. -/
def TLSContext.init (client_private : Bytes) : TLSContext :=
  ⟨client_private, [], none, none, none, none, none, none, none, none, none, none, none, none⟩

/-- `TLSContext.get_messages`: the concatenation of the transcript. -/
def TLSContext.get_messages (c : TLSContext) : Bytes := c.messages.flatten

/-- `TLSContext.append_message`. -/
def TLSContext.append_message (c : TLSContext) (m : Bytes) : TLSContext :=
  { c with messages := c.messages ++ [m] }

/-- `TLSContext.set_key_exchange`: shared_key = x25519.multscalar
(client_private, server_public); the scalar multiplication (module
`x25519`, not under src) is passed as the parameter `mult`. -/
def TLSContext.set_key_exchange (c : TLSContext) (mult : Bytes → Bytes → Bytes)
    (server_public : Bytes) : TLSContext :=
  { c with shared_key := some (mult c.client_private server_public) }

/-- `TLSContext.key_schedule_in_handshake` of `src/tinytls/__init__.py`,
lines 50-70: early secret, handshake secret, both handshake traffic
secrets from the current transcript, and the handshake traffic keys. -/
def TLSContext.key_schedule_in_handshake (cr : Crypto) (c : TLSContext) : TLSContext :=
  let messages := c.get_messages
  let secret1 := cr.hmac Z32 Z32
  let secret2 := derive_secret cr secret1 derived_label []
  let secret3 := cr.hmac secret2 (c.shared_key.getD [])
  let chs := derive_secret cr secret3 c_hs_label messages
  let shs := derive_secret cr secret3 s_hs_label messages
  { c with
    early_secret := some secret1
    handshake_secret := some secret3
    client_hs_traffic_secret := some chs
    server_hs_traffic_secret := some shs
    client_hs_key_iv := some (gen_key_and_iv cr chs)
    server_hs_key_iv := some (gen_key_and_iv cr shs) }

/-- `TLSContext.key_schedule_in_app_data` of `src/tinytls/__init__.py`,
lines 72-89: master secret and both application traffic secrets from the
current transcript, and the application traffic keys. -/
def TLSContext.key_schedule_in_app_data (cr : Crypto) (c : TLSContext) : TLSContext :=
  let messages := c.get_messages
  let secret1 := derive_secret cr (c.handshake_secret.getD []) derived_label []
  let secret2 := cr.hmac secret1 Z32
  let cap := derive_secret cr secret2 c_ap_label messages
  let sap := derive_secret cr secret2 s_ap_label messages
  { c with
    master_secret := some secret2
    client_app_traffic_secret := some cap
    server_app_traffic_secret := some sap
    client_app_key_iv := some (gen_key_and_iv cr cap)
    server_app_key_iv := some (gen_key_and_iv cr sap) }

/-- Error outcomes of the engine: raised alerts and failed `assert`s in
the Python source, AEAD failures, and reading from an exhausted
transport. -/
inductive TLSErr where
  | AlertHandshakeFailure
  | AssertFail
  | AuthFail
  | TransportEOF
deriving DecidableEq

/-- `TLSSocket.server_hello` of `src/tinytls/__init__.py`, lines 115-124:
check the alert case, assert the record is a handshake record carrying a
ServerHello, append the body to the transcript, set the key exchange and
run the handshake key schedule.  `parseSH` stands for
`protocol.parse_server_hello` (module not under src), `mult` for
`x25519.multscalar`. -/
def server_hello_step (cr : Crypto) (mult : Bytes → Bytes → Bytes) (parseSH : Bytes → Bytes)
    (head message : Bytes) (ctx : TLSContext) : Except TLSErr TLSContext :=
  if head.take 3 = alertCT ++ TLS12 ∧ message = server_helloType ++ handshake_failure_desc then
    .error .AlertHandshakeFailure
  else if head.take 3 = handshakeCT ++ TLS12 then
    if message.take 1 = server_helloType then
      .ok (((ctx.append_message message).set_key_exchange mult
        (parseSH message)).key_schedule_in_handshake cr)
    else .error .AssertFail
  else .error .AssertFail

/-- The segment cut from the head of a decrypted handshake plaintext:
`segment = plaindata[:ln+4]` where `ln = bytes_to_bint(plaindata[1:4])`
(`server_handshake`, lines 137-139).  Python slicing clamps at the end of
the buffer, as `List.take` does. -/
def segOf (pd : Bytes) : Bytes := pd.take (bytes_to_bint ((pd.drop 1).take 3) + 4)

/-- The remainder after cutting the first segment:
`plaindata = plaindata[ln+4:]` (`server_handshake`, line 139). -/
def restOf (pd : Bytes) : Bytes := pd.drop (bytes_to_bint ((pd.drop 1).take 3) + 4)

/-- The verify_data the client expects in the server Finished
(`server_handshake`, lines 144-147): HMAC(finished_key,
SHA-256(transcript so far)) with finished_key =
HKDF-Expand-Label(server_hs_traffic_secret, "finished", "", 32). -/
def expected_verify (cr : Crypto) (ctx : TLSContext) : Bytes :=
  cr.hmac (HKDF_expand_label cr (ctx.server_hs_traffic_secret.getD []) finished_label [] 32)
    (cr.sha256 ctx.get_messages)

/-- The inner `while plaindata:` loop of `TLSSocket.server_handshake`
(lines 136-150), fuel-indexed so that it is structurally recursive; the
caller passes `plaindata.length` as fuel, which the loop never exhausts
because every iteration drops at least four bytes.  Each segment is
appended to the transcript after it is processed; a Finished segment is
verified against `expected_verify` first (`assert len(verify_data) == 32`
and `assert verify_data == expected_verify_data`). -/
def processPlaindataF (cr : Crypto) : Nat → TLSContext → Bytes → Bool →
    Except TLSErr (TLSContext × Bool)
  | _, ctx, [], fin => .ok (ctx, fin)
  | 0, _, _ :: _, _ => .error .AssertFail
  | fuel + 1, ctx, b :: bs, fin =>
    if (segOf (b :: bs)).take 1 = finishedType then
      if ((segOf (b :: bs)).drop 4).length = 32 then
        if (segOf (b :: bs)).drop 4 = expected_verify cr ctx then
          processPlaindataF cr fuel (ctx.append_message (segOf (b :: bs))) (restOf (b :: bs)) true
        else .error .AuthFail
      else .error .AssertFail
    else processPlaindataF cr fuel (ctx.append_message (segOf (b :: bs))) (restOf (b :: bs)) fin

/-- The inner loop of `server_handshake` at its natural fuel. -/
def processPlaindata (cr : Crypto) (ctx : TLSContext) (pd : Bytes) (fin : Bool) :
    Except TLSErr (TLSContext × Bool) :=
  processPlaindataF cr pd.length ctx pd fin

/-- The segmentation performed by the inner loop of `server_handshake`,
as a pure function (fuel-indexed like `processPlaindataF`). -/
def splitSegsF : Nat → Bytes → List Bytes
  | _, [] => []
  | 0, _ :: _ => []
  | fuel + 1, b :: bs => segOf (b :: bs) :: splitSegsF fuel (restOf (b :: bs))

/-- The segmentation of a decrypted handshake plaintext. -/
def splitSegs (pd : Bytes) : List Bytes := splitSegsF pd.length pd

/-- The outer `while not finished:` loop of `TLSSocket.server_handshake`
(lines 126-150) over the queue of records delivered by the transport.
`dec` stands for `ChaCha20Poly1305.decrypt_and_verify` of the
server-to-client handshake AEAD (module not under src): it maps the
record body and header to the decrypted plaintext and inner content type,
or `none` on authentication failure.  ChangeCipherSpec records are
skipped; every other record must be an application_data record, whose
plaintext is split into handshake messages. -/
def server_handshake_loop (cr : Crypto) (dec : Bytes → Bytes → Option (Bytes × Nat)) :
    TLSContext → List (Bytes × Bytes) → Bool → Except TLSErr (TLSContext × List (Bytes × Bytes))
  | ctx, records, true => .ok (ctx, records)
  | _, [], false => .error .TransportEOF
  | ctx, (head, message) :: rest, false =>
    if head.take 1 = change_cipher_specCT then
      server_handshake_loop cr dec ctx rest false
    else if head.take 3 = application_dataCT ++ TLS12 then
      match dec message head with
      | none => .error .AuthFail
      | some (pd, _) =>
        match processPlaindata cr ctx pd false with
        | .error e => .error e
        | .ok (ctx', fin') => server_handshake_loop cr dec ctx' rest fin'
    else .error .AssertFail

/-- `TLSSocket._encrypted_app_data` (lines 155-161): append the true
content type, pad to 16 bytes, authenticate the outer header as AAD, and
frame the ciphertext-plus-tag as an application_data record.  `enc`
stands for `encrypter.encrypt_and_tag` of the AEAD object passed at the
call site (module not under src). -/
def encrypted_app_data (enc : Bytes → Bytes → Bytes) (data content_type : Bytes) : Bytes :=
  let d := data ++ content_type
  let message_pad := d ++ pad16 d.length
  let aad := application_dataCT ++ TLS12 ++ bint_to_bytes (message_pad.length + 16) 2
  let encrypted := enc message_pad aad
  application_dataCT ++ TLS12 ++ bint_to_bytes encrypted.length 2 ++ encrypted

/-- The client Finished handshake message built by
`TLSSocket.send_finished` (lines 163-166): type 0x14, uint24 length, and
verify_data = HMAC(finished_key, SHA-256(transcript)) with finished_key
derived from the client handshake traffic secret. -/
def finish_message (cr : Crypto) (ctx : TLSContext) : Bytes :=
  let finished_key := HKDF_expand_label cr (ctx.client_hs_traffic_secret.getD [])
    finished_label [] 32
  let verify_data := cr.hmac finished_key (cr.sha256 ctx.get_messages)
  finishedType ++ bint_to_bytes verify_data.length 3 ++ verify_data

/-- `TLSSocket.send_finished` (lines 163-167): the context is returned
unchanged — the source contains no `append_message` call — together with
the encrypted record that is sent (`_encrypted_app_data(finish_message,
protocol.handshake, client_traffic_crypto)`). -/
def send_finished_step (cr : Crypto) (enc : Bytes → Bytes → Bytes) (ctx : TLSContext) :
    TLSContext × Bytes :=
  (ctx, encrypted_app_data enc (finish_message cr ctx) handshakeCT)

/-- The alert body built by `TLSSocket.send_alert` (line 170):
`b'\x02' + protocol.close_notify`. -/
def alert_message : Bytes := [2] ++ close_notify

/-- `TLSSocket.send_alert` (lines 169-171): the alert body encrypted as
an application_data record; the AEAD passed at the call site is
`ctx.client_app_data_crypto`, represented by `enc`. -/
def send_alert_record (enc : Bytes → Bytes → Bytes) : Bytes :=
  encrypted_app_data enc alert_message alertCT

/-- `TLSSocket.send` (lines 173-174). -/
def tinytls_send (enc : Bytes → Bytes → Bytes) (data : Bytes) : Bytes :=
  encrypted_app_data enc data application_dataCT

/-- Modelled from the spec: `protocol.wrap_encrypted` of the tinytls13
`protocol` module (not under src), the record framing
`application_data(23) || 0x0303 || uint16(len) || encrypted`. -/
def wrap_encrypted (encrypted : Bytes) : Bytes :=
  application_dataCT ++ TLS12 ++ bint_to_bytes encrypted.length 2 ++ encrypted

/-- `TLSSocket.send` of `src/tinytls13/tlssocket.py`, lines 102-108: the
same construction as `_encrypted_app_data`, written out inline. -/
def tinytls13_send (enc : Bytes → Bytes → Bytes) (data : Bytes) : Bytes :=
  wrap_encrypted (enc ((data ++ application_dataCT) ++ pad16 (data ++ application_dataCT).length)
    (application_dataCT ++ TLS12 ++
      bint_to_bytes (((data ++ application_dataCT) ++
        pad16 (data ++ application_dataCT).length).length + 16) 2))

/-- `TLSSocket.send_alert` of `src/tinytls13/tlssocket.py`, lines 94-100:
message = `b'\x02' + close_notify + alert`, padded, encrypted and
framed inline. -/
def tinytls13_send_alert (enc : Bytes → Bytes → Bytes) : Bytes :=
  wrap_encrypted (enc ((([2] ++ close_notify) ++ alertCT) ++
      pad16 (([2] ++ close_notify) ++ alertCT).length)
    (application_dataCT ++ TLS12 ++
      bint_to_bytes (((([2] ++ close_notify) ++ alertCT) ++
        pad16 (([2] ++ close_notify) ++ alertCT).length).length + 16) 2))

/-- The receive-side state of `TLSSocket` in `src/tinytls/__init__.py`:
the internal plaintext buffer `read_buf` and the queue of encrypted
records still available from the transport. -/
structure RecvState where
  read_buf : Bytes
  incoming : List (Bytes × Bytes)
deriving DecidableEq

/-- `TLSSocket.recv` of `src/tinytls/__init__.py`, lines 176-182: when
the buffer is empty, read and decrypt exactly one record into it; then
return at most `ln` bytes from the front of the buffer, keeping the
rest.  `dec` stands for `server_app_data_crypto.decrypt_and_verify`. -/
def tinytls_recv (dec : Bytes → Bytes → Option (Bytes × Nat)) (st : RecvState) (ln : Nat) :
    Except TLSErr (Bytes × RecvState) :=
  if st.read_buf = [] then
    match st.incoming with
    | [] => .error .TransportEOF
    | (head, message) :: rest =>
      match dec message head with
      | none => .error .AuthFail
      | some (pd, _) => .ok (pd.take ln, ⟨pd.drop ln, rest⟩)
  else .ok (st.read_buf.take ln, ⟨st.read_buf.drop ln, st.incoming⟩)

/-- `TLSSocket.recv` of `src/tinytls13/tlssocket.py`, lines 110-113: one
record is read and decrypted on every call and the whole plaintext is
returned; the `ln` argument is not used and nothing is buffered. -/
def tinytls13_recv (dec : Bytes → Bytes → Option (Bytes × Nat))
    (records : List (Bytes × Bytes)) (ln : Nat) :
    Except TLSErr (Bytes × List (Bytes × Bytes)) :=
  match records with
  | [] => .error .TransportEOF
  | (head, message) :: rest =>
    match dec message head with
    | none => .error .AuthFail
    | some (pd, _) => .ok (pd, rest)

/-- The bytes the peer supplies during `wrap_socket`: the ServerHello
record (header and body) and the queue of post-ServerHello records. -/
structure NetInput where
  shHead : Bytes
  shBody : Bytes
  hsRecords : List (Bytes × Bytes)

/-- `TLSContext.wrap_socket` (lines 91-99): client_hello (append the
ClientHello body `ch`, built by `protocol.client_hello_message`, to the
transcript), server_hello, server_handshake, send_finished (which does
not change the context), then the application-data key schedule.
Returns the final context and the records left unread on the
transport. -/
def wrap_socket_run (cr : Crypto) (mult : Bytes → Bytes → Bytes) (parseSH : Bytes → Bytes)
    (dec : Bytes → Bytes → Option (Bytes × Nat)) (client_private ch : Bytes) (net : NetInput) :
    Except TLSErr (TLSContext × List (Bytes × Bytes)) :=
  let ctx1 := (TLSContext.init client_private).append_message ch
  match server_hello_step cr mult parseSH net.shHead net.shBody ctx1 with
  | .error e => .error e
  | .ok ctx2 =>
    match server_handshake_loop cr dec ctx2 net.hsRecords false with
    | .error e => .error e
    | .ok (ctx3, rest) => .ok (ctx3.key_schedule_in_app_data cr, rest)

/-- The spec-side value of the early secret:
HKDF-Extract(0^32, 0^32) with HKDF-Extract(salt, ikm) = HMAC(salt, ikm). -/
def early_secret_v (cr : Crypto) : Bytes := cr.hmac Z32 Z32

/-- The spec-side value of the handshake secret:
HKDF-Extract(Derive-Secret(early_secret, "derived", ""), shared). -/
def handshake_secret_v (cr : Crypto) (shared : Bytes) : Bytes :=
  cr.hmac (derive_secret cr (early_secret_v cr) derived_label []) shared

/-- The spec-side value of the master secret:
HKDF-Extract(Derive-Secret(handshake_secret, "derived", ""), 0^32). -/
def master_secret_v (cr : Crypto) (shared : Bytes) : Bytes :=
  cr.hmac (derive_secret cr (handshake_secret_v cr shared) derived_label []) Z32

/-- The spec-side inner plaintext: content, true content type, zero
padding to a multiple of 16 bytes. -/
def innerPlain (data ct : Bytes) : Bytes := (data ++ ct) ++ pad16 (data ++ ct).length

/-- The spec-side 5-byte record header of an encrypted record:
application_data(23) || 0x0303 || uint16(n). -/
def recordHdr (n : Nat) : Bytes := application_dataCT ++ TLS12 ++ bint_to_bytes n 2

/-- A byte string is a well-formed handshake message: at least the
4-byte header, and total length matching the declared uint24 length. -/
def segWF (s : Bytes) : Prop :=
  4 ≤ s.length ∧ s.length = bytes_to_bint ((s.drop 1).take 3) + 4

instance segWF_decidable (s : Bytes) : Decidable (segWF s) :=
  inferInstanceAs (Decidable (4 ≤ s.length ∧ s.length = bytes_to_bint ((s.drop 1).take 3) + 4))

/-- A trivial instantiation of the primitives for concrete runs: the
hash of anything is empty and every MAC is 32 zero bytes. -/
def crD : Crypto := ⟨fun _ => [], fun _ _ => List.replicate 32 0⟩

/-- A transparent decryption for concrete runs: the record body itself
is the plaintext, with inner content type handshake (22). -/
def decD : Bytes → Bytes → Option (Bytes × Nat) := fun m _ => some (m, 22)

/-- A transparent AEAD seal for concrete runs: ciphertext = plaintext
followed by a 16-byte zero tag (so its length is plaintext + 16). -/
def encD : Bytes → Bytes → Bytes := fun p _ => p ++ List.replicate 16 0

/-- A dummy scalar multiplication for concrete runs. -/
def multD : Bytes → Bytes → Bytes := fun a b => a ++ b

/-- A transparent ServerHello parser for concrete runs. -/
def parseD : Bytes → Bytes := fun m => m

/-- A concrete ClientHello body (type 1, empty content). -/
def chD : Bytes := [1, 0, 0, 0]

/-- A concrete ServerHello body (type 2, empty content). -/
def shD : Bytes := [2, 0, 0, 0]

/-- A concrete server Finished segment whose verify_data matches
`expected_verify` under `crD`. -/
def finSegD : Bytes := [20, 0, 0, 32] ++ List.replicate 32 0

/-- A conforming network input: ServerHello, then one encrypted record
whose plaintext is exactly the server Finished. -/
def netD : NetInput := ⟨[22, 3, 3], shD, [([23, 3, 3, 0, 36], finSegD)]⟩

/-- An adversarial network input: the record carrying the server
Finished has a further handshake segment after the Finished. -/
def netD2 : NetInput := ⟨[22, 3, 3], shD, [([23, 3, 3, 0, 40], finSegD ++ [8, 0, 0, 0])]⟩

/-- The conforming concrete handshake run. -/
def runD : Except TLSErr (TLSContext × List (Bytes × Bytes)) :=
  wrap_socket_run crD multD parseD decD [] chD netD

/-- The final context of the conforming concrete run. -/
def ctxFD : TLSContext :=
  match runD with
  | .ok p => p.1
  | .error _ => TLSContext.init []

/-- The context used by the C2 witness: transcript holding a ClientHello
and a ServerHello, with a server handshake traffic secret assigned. -/
def ctxW : TLSContext :=
  { TLSContext.init [] with messages := [chD, shD], server_hs_traffic_secret := some Z32 }

/-- The context used by the C3 counterexample. -/
def ctxEx : TLSContext :=
  { TLSContext.init [] with
    messages := [[1]]
    client_hs_traffic_secret := some Z32
    server_hs_traffic_secret := some Z32 }

/-- The receive state used by the C10 witness: empty buffer, an empty
encrypted record queued ahead of a record with one byte. -/
def stW : RecvState := ⟨[], [([23, 3, 3, 0, 16], []), ([23, 3, 3, 0, 20], [97])]⟩

/-- The context reached after ServerHello processing inside
`wrap_socket_run`. -/
def ctx2Of (cr : Crypto) (mult : Bytes → Bytes → Bytes) (parseSH : Bytes → Bytes)
    (priv ch sh : Bytes) : TLSContext :=
  ((((TLSContext.init priv).append_message ch).append_message sh).set_key_exchange mult
    (parseSH sh)).key_schedule_in_handshake cr


theorem restOf_length_le (b : Nat) (bs : Bytes) : (restOf (b :: bs)).length ≤ bs.length := by
  simp only [restOf, List.length_drop, List.length_cons]
  omega

theorem segOf_append_restOf (pd : Bytes) : segOf pd ++ restOf pd = pd :=
  List.take_append_drop _ _

theorem splitSegsF_nil (fuel : Nat) : splitSegsF fuel [] = [] := by
  cases fuel <;> rfl

theorem processPlaindataF_nil (cr : Crypto) (fuel : Nat) (ctx : TLSContext) (fin : Bool) :
    processPlaindataF cr fuel ctx [] fin = .ok (ctx, fin) := by
  cases fuel <;> rfl

theorem splitSegsF_congr : ∀ (f g : Nat) (pd : Bytes), pd.length ≤ f → pd.length ≤ g →
    splitSegsF f pd = splitSegsF g pd := by
  intro f
  induction f with
  | zero =>
    intro g pd hf _
    have hnil : pd = [] := List.eq_nil_of_length_eq_zero (Nat.le_zero.mp hf)
    subst hnil
    simp [splitSegsF_nil]
  | succ f ih =>
    intro g pd hf hg
    cases pd with
    | nil => simp [splitSegsF_nil]
    | cons b bs =>
      cases g with
      | zero => simp at hg
      | succ g =>
        simp only [splitSegsF]
        have hbs : bs.length ≤ f := by simpa using hf
        have hbs' : bs.length ≤ g := by simpa using hg
        have hr := restOf_length_le b bs
        rw [ih g (restOf (b :: bs)) (le_trans hr hbs) (le_trans hr hbs')]

theorem splitSegsF_flatten : ∀ (fuel : Nat) (pd : Bytes), pd.length ≤ fuel →
    (splitSegsF fuel pd).flatten = pd := by
  intro fuel
  induction fuel with
  | zero =>
    intro pd hf
    have hnil : pd = [] := List.eq_nil_of_length_eq_zero (Nat.le_zero.mp hf)
    subst hnil
    simp [splitSegsF_nil]
  | succ fuel ih =>
    intro pd hf
    cases pd with
    | nil => simp [splitSegsF_nil]
    | cons b bs =>
      have hbs : bs.length ≤ fuel := by simpa using hf
      have hr := restOf_length_le b bs
      simp only [splitSegsF, List.flatten_cons]
      rw [ih (restOf (b :: bs)) (le_trans hr hbs), segOf_append_restOf]

theorem splitSegs_flatten (pd : Bytes) : (splitSegs pd).flatten = pd :=
  splitSegsF_flatten pd.length pd le_rfl

theorem processPlaindataF_congr (cr : Crypto) : ∀ (f g : Nat) (ctx : TLSContext) (pd : Bytes)
    (fin : Bool), pd.length ≤ f → pd.length ≤ g →
    processPlaindataF cr f ctx pd fin = processPlaindataF cr g ctx pd fin := by
  intro f
  induction f with
  | zero =>
    intro g ctx pd fin hf _
    have hnil : pd = [] := List.eq_nil_of_length_eq_zero (Nat.le_zero.mp hf)
    subst hnil
    simp [processPlaindataF_nil]
  | succ f ih =>
    intro g ctx pd fin hf hg
    cases pd with
    | nil => simp [processPlaindataF_nil]
    | cons b bs =>
      cases g with
      | zero => simp at hg
      | succ g =>
        have hbs : bs.length ≤ f := by simpa using hf
        have hbs' : bs.length ≤ g := by simpa using hg
        have hr := restOf_length_le b bs
        simp only [processPlaindataF]
        by_cases h1 : (segOf (b :: bs)).take 1 = finishedType
        · by_cases h2 : ((segOf (b :: bs)).drop 4).length = 32
          · by_cases h3 : (segOf (b :: bs)).drop 4 = expected_verify cr ctx
            · simp only [if_pos h1, if_pos h2, if_pos h3]
              exact ih g _ _ _ (le_trans hr hbs) (le_trans hr hbs')
            · simp only [if_pos h1, if_pos h2, if_neg h3]
          · simp only [if_pos h1, if_neg h2]
        · simp only [if_neg h1]
          exact ih g _ _ _ (le_trans hr hbs) (le_trans hr hbs')

theorem processPlaindataF_ok_shape (cr : Crypto) : ∀ (fuel : Nat) (ctx : TLSContext) (pd : Bytes)
    (fin : Bool) (ctx' : TLSContext) (fin' : Bool),
    processPlaindataF cr fuel ctx pd fin = .ok (ctx', fin') →
    ctx' = { ctx with messages := ctx.messages ++ splitSegsF fuel pd } := by
  intro fuel
  induction fuel with
  | zero =>
    intro ctx pd fin ctx' fin' h
    cases pd with
    | nil =>
      rw [processPlaindataF_nil] at h
      obtain ⟨h1, _⟩ := by simpa using h
      subst h1
      simp [splitSegsF_nil]
    | cons b bs => simp [processPlaindataF] at h
  | succ fuel ih =>
    intro ctx pd fin ctx' fin' h
    cases pd with
    | nil =>
      rw [processPlaindataF_nil] at h
      obtain ⟨h1, _⟩ := by simpa using h
      subst h1
      simp [splitSegsF_nil]
    | cons b bs =>
      simp only [processPlaindataF] at h
      by_cases h1 : (segOf (b :: bs)).take 1 = finishedType
      · by_cases h2 : ((segOf (b :: bs)).drop 4).length = 32
        · by_cases h3 : (segOf (b :: bs)).drop 4 = expected_verify cr ctx
          · simp only [if_pos h1, if_pos h2, if_pos h3] at h
            have := ih _ _ _ _ _ h
            subst this
            simp [TLSContext.append_message, splitSegsF]
          · simp only [if_pos h1, if_pos h2, if_neg h3] at h
            exact Except.noConfusion h
        · simp only [if_pos h1, if_neg h2] at h
          exact Except.noConfusion h
      · simp only [if_neg h1] at h
        have := ih _ _ _ _ _ h
        subst this
        simp [TLSContext.append_message, splitSegsF]

theorem processPlaindata_ok_shape (cr : Crypto) (ctx : TLSContext) (pd : Bytes) (fin : Bool)
    (ctx' : TLSContext) (fin' : Bool) (h : processPlaindata cr ctx pd fin = .ok (ctx', fin')) :
    ctx' = { ctx with messages := ctx.messages ++ splitSegs pd } :=
  processPlaindataF_ok_shape cr pd.length ctx pd fin ctx' fin' h

theorem header_of_append {s : Bytes} (h4 : 4 ≤ s.length) (t : Bytes) :
    ((s ++ t).drop 1).take 3 = (s.drop 1).take 3 := by
  rw [List.drop_append_eq_append_drop, show 1 - s.length = 0 by omega, List.drop_zero,
    List.take_append_eq_append_take, show 3 - (s.drop 1).length = 0 by simp; omega,
    List.take_zero, List.append_nil]

theorem segOf_append {s : Bytes} (hWF : segWF s) (t : Bytes) : segOf (s ++ t) = s := by
  rw [segOf, header_of_append hWF.1 t, List.take_left' hWF.2]

theorem restOf_append {s : Bytes} (hWF : segWF s) (t : Bytes) : restOf (s ++ t) = t := by
  rw [restOf, header_of_append hWF.1 t, List.drop_left' hWF.2]

theorem segOf_self {s : Bytes} (hWF : segWF s) : segOf s = s := by
  have := segOf_append hWF []
  simpa using this

theorem restOf_self {s : Bytes} (hWF : segWF s) : restOf s = [] := by
  have := restOf_append hWF []
  simpa using this

theorem splitSegs_of_segWF {s : Bytes} (hWF : segWF s) : splitSegs s = [s] := by
  have h4 := hWF.1
  cases s with
  | nil => simp at h4
  | cons b bs =>
    show splitSegsF (bs.length + 1) (b :: bs) = [b :: bs]
    rw [splitSegsF, segOf_self hWF, restOf_self hWF, splitSegsF_nil]

theorem flatten_map_splitSegs (l : List Bytes) :
    ((l.map splitSegs).flatten).flatten = l.flatten := by
  induction l with
  | nil => simp
  | cons pd l ih => simp [splitSegs_flatten, ih]

theorem processPlaindata_cons_nonfin (cr : Crypto) (ctx : TLSContext) {s : Bytes}
    (hWF : segWF s) (hnf : s.take 1 ≠ finishedType) (rest : Bytes) (fin : Bool) :
    processPlaindata cr ctx (s ++ rest) fin =
      processPlaindata cr (ctx.append_message s) rest fin := by
  have h4 := hWF.1
  cases s with
  | nil => simp at h4
  | cons b bs =>
    show processPlaindataF cr ((bs ++ rest).length + 1) ctx (b :: (bs ++ rest)) fin = _
    rw [processPlaindataF]
    have hseg : segOf (b :: (bs ++ rest)) = b :: bs := segOf_append hWF rest
    have hrest : restOf (b :: (bs ++ rest)) = rest := restOf_append hWF rest
    rw [hseg, hrest, if_neg hnf]
    exact processPlaindataF_congr cr _ _ _ _ _ (by simp) le_rfl

theorem processPlaindata_fin (cr : Crypto) (ctx : TLSContext) {v : Bytes} (hv : v.length = 32)
    (fin : Bool) :
    processPlaindata cr ctx ((finishedType ++ bint_to_bytes 32 3) ++ v) fin =
      (if v = expected_verify cr ctx then
        .ok (ctx.append_message ((finishedType ++ bint_to_bytes 32 3) ++ v), true)
      else .error .AuthFail) := by
  have hhdr : finishedType ++ bint_to_bytes 32 3 = [20, 0, 0, 32] := by decide
  have hWF : segWF (20 :: 0 :: 0 :: 32 :: v) := by
    refine ⟨by simp, ?_⟩
    show (20 :: 0 :: 0 :: 32 :: v).length = 32 + 4
    simp [hv]
  rw [hhdr]
  show processPlaindataF cr ((0 :: 0 :: 32 :: v).length + 1) ctx (20 :: 0 :: 0 :: 32 :: v) fin = _
  rw [processPlaindataF]
  have hseg : segOf (20 :: 0 :: 0 :: 32 :: v) = 20 :: 0 :: 0 :: 32 :: v := segOf_self hWF
  have hrest : restOf (20 :: 0 :: 0 :: 32 :: v) = [] := restOf_self hWF
  rw [hseg, hrest]
  have hdrop : (20 :: 0 :: 0 :: 32 :: v).drop 4 = v := rfl
  rw [if_pos (show (20 :: 0 :: 0 :: 32 :: v).take 1 = finishedType from rfl), hdrop, if_pos hv]
  by_cases hveq : v = expected_verify cr ctx
  · rw [if_pos hveq, if_pos hveq, processPlaindataF_nil]
    rfl
  · rw [if_neg hveq, if_neg hveq]

theorem foldl_append_message (pre : List Bytes) : ∀ ctx : TLSContext,
    pre.foldl TLSContext.append_message ctx = { ctx with messages := ctx.messages ++ pre } := by
  induction pre with
  | nil => intro ctx; simp
  | cons s pre ih =>
    intro ctx
    show pre.foldl TLSContext.append_message (ctx.append_message s) = _
    rw [ih]
    simp [TLSContext.append_message]

theorem loop_true (cr : Crypto) (dec : Bytes → Bytes → Option (Bytes × Nat)) (ctx : TLSContext)
    (records : List (Bytes × Bytes)) :
    server_handshake_loop cr dec ctx records true = .ok (ctx, records) := by
  cases records with
  | nil => rfl
  | cons r rest => cases r; rfl

theorem loop_nil_false (cr : Crypto) (dec : Bytes → Bytes → Option (Bytes × Nat))
    (ctx : TLSContext) :
    server_handshake_loop cr dec ctx [] false = .error .TransportEOF := rfl

theorem loop_cons_false (cr : Crypto) (dec : Bytes → Bytes → Option (Bytes × Nat))
    (ctx : TLSContext) (hd msg : Bytes) (rest : List (Bytes × Bytes)) :
    server_handshake_loop cr dec ctx ((hd, msg) :: rest) false =
      (if hd.take 1 = change_cipher_specCT then
        server_handshake_loop cr dec ctx rest false
      else if hd.take 3 = application_dataCT ++ TLS12 then
        match dec msg hd with
        | none => .error .AuthFail
        | some (pd, _) =>
          match processPlaindata cr ctx pd false with
          | .error e => .error e
          | .ok (ctx', fin') => server_handshake_loop cr dec ctx' rest fin'
      else .error .AssertFail) := rfl

theorem server_handshake_loop_ok_shape (cr : Crypto) (dec : Bytes → Bytes → Option (Bytes × Nat)) :
    ∀ (records : List (Bytes × Bytes)) (ctx : TLSContext) (fin : Bool) (ctx' : TLSContext)
    (rest' : List (Bytes × Bytes)),
    server_handshake_loop cr dec ctx records fin = .ok (ctx', rest') →
    ∃ pds : List Bytes,
      ctx' = { ctx with messages := ctx.messages ++ (pds.map splitSegs).flatten } ∧
      ∀ pd ∈ pds, ∃ hd msg ct, (hd, msg) ∈ records ∧ hd.take 1 ≠ change_cipher_specCT ∧
        dec msg hd = some (pd, ct) := by
  intro records
  induction records with
  | nil =>
    intro ctx fin ctx' rest' h
    cases fin with
    | false => exact Except.noConfusion h
    | true =>
      rw [loop_true] at h
      obtain ⟨h1, _⟩ := by simpa using h
      subst h1
      exact ⟨[], by simp, by simp⟩
  | cons r rest ih =>
    intro ctx fin ctx' rest' h
    cases fin with
    | true =>
      rw [loop_true] at h
      obtain ⟨h1, _⟩ := by simpa using h
      subst h1
      exact ⟨[], by simp, by simp⟩
    | false =>
      obtain ⟨hd, msg⟩ := r
      rw [loop_cons_false] at h
      by_cases hccs : hd.take 1 = change_cipher_specCT
      · rw [if_pos hccs] at h
        obtain ⟨pds, hctx, hmem⟩ := ih ctx false ctx' rest' h
        refine ⟨pds, hctx, ?_⟩
        intro pd hpd
        obtain ⟨hd2, msg2, ct2, hin, hnc, hdec2⟩ := hmem pd hpd
        exact ⟨hd2, msg2, ct2, List.mem_cons_of_mem _ hin, hnc, hdec2⟩
      · rw [if_neg hccs] at h
        by_cases happ : hd.take 3 = application_dataCT ++ TLS12
        · rw [if_pos happ] at h
          cases hdec : dec msg hd with
          | none =>
            simp only [hdec] at h
            exact Except.noConfusion h
          | some pdct =>
            obtain ⟨pd, ct⟩ := pdct
            simp only [hdec] at h
            cases hpp : processPlaindata cr ctx pd false with
            | error e =>
              simp only [hpp] at h
              exact Except.noConfusion h
            | ok p =>
              obtain ⟨ctxm, fin'⟩ := p
              simp only [hpp] at h
              obtain ⟨pds, hctx, hmem⟩ := ih ctxm fin' ctx' rest' h
              have hm := processPlaindata_ok_shape cr ctx pd false ctxm fin' hpp
              refine ⟨pd :: pds, ?_, ?_⟩
              · rw [hctx, hm]
                simp [List.append_assoc]
              · intro pd2 hpd2
                rcases List.mem_cons.mp hpd2 with h2 | h2
                · subst h2
                  exact ⟨hd, msg, ct, List.mem_cons_self _ _, hccs, hdec⟩
                · obtain ⟨hd2, msg2, ct2, hin, hnc, hdec2⟩ := hmem pd2 h2
                  exact ⟨hd2, msg2, ct2, List.mem_cons_of_mem _ hin, hnc, hdec2⟩
        · rw [if_neg happ] at h
          exact Except.noConfusion h

theorem server_hello_step_ok (cr : Crypto) (mult : Bytes → Bytes → Bytes)
    (parseSH : Bytes → Bytes) (head msg : Bytes) (ctx ctx' : TLSContext)
    (h : server_hello_step cr mult parseSH head msg ctx = .ok ctx') :
    ctx' = ((ctx.append_message msg).set_key_exchange mult
      (parseSH msg)).key_schedule_in_handshake cr := by
  unfold server_hello_step at h
  by_cases h1 : head.take 3 = alertCT ++ TLS12 ∧ msg = server_helloType ++ handshake_failure_desc
  · rw [if_pos h1] at h
    exact Except.noConfusion h
  · rw [if_neg h1] at h
    by_cases h2 : head.take 3 = handshakeCT ++ TLS12
    · rw [if_pos h2] at h
      by_cases h3 : msg.take 1 = server_helloType
      · rw [if_pos h3] at h
        exact (Except.ok.inj h).symm
      · rw [if_neg h3] at h
        exact Except.noConfusion h
    · rw [if_neg h2] at h
      exact Except.noConfusion h

/-- The record shape produced by `_encrypted_app_data` for any AEAD whose
output is 16 bytes (the tag) longer than its input. -/
theorem ead_shape (enc : Bytes → Bytes → Bytes)
    (hlen : ∀ p a, (enc p a).length = p.length + 16) (data ct : Bytes) :
    encrypted_app_data enc data ct =
      recordHdr ((innerPlain data ct).length + 16) ++
        enc (innerPlain data ct) (recordHdr ((innerPlain data ct).length + 16)) := by
  simp only [encrypted_app_data, innerPlain, recordHdr, hlen]

/-- C2: when a decrypted handshake plaintext consists of well-formed
non-Finished messages followed by a Finished with a 32-byte verify_data,
the loop accepts exactly when verify_data equals
HMAC(HKDF-Expand-Label(server_hs_traffic_secret, "finished", "", 32),
SHA-256(transcript up to but not including this Finished)); any mismatch
is the fatal `AuthFail`. -/
theorem c2_finished_verification (cr : Crypto) (ctx : TLSContext) (pre : List Bytes)
    (hpre : ∀ s ∈ pre, segWF s ∧ s.take 1 ≠ finishedType) (v : Bytes) (hv : v.length = 32) :
    processPlaindata cr ctx (pre.flatten ++ ((finishedType ++ bint_to_bytes 32 3) ++ v)) false =
      (if v = cr.hmac (HKDF_expand_label cr (ctx.server_hs_traffic_secret.getD [])
            finished_label [] 32) (cr.sha256 (ctx.get_messages ++ pre.flatten))
      then .ok ((pre.foldl TLSContext.append_message ctx).append_message
          ((finishedType ++ bint_to_bytes 32 3) ++ v), true)
      else .error .AuthFail) := by
  induction pre generalizing ctx with
  | nil =>
    simp only [List.flatten_nil, List.nil_append, List.foldl_nil, List.append_nil]
    rw [processPlaindata_fin cr ctx hv false]
    rfl
  | cons s pre ih =>
    have hs := hpre s (List.mem_cons_self s pre)
    have hpre' : ∀ t ∈ pre, segWF t ∧ t.take 1 ≠ finishedType :=
      fun t ht => hpre t (List.mem_cons_of_mem s ht)
    have hassoc : (s :: pre).flatten ++ ((finishedType ++ bint_to_bytes 32 3) ++ v) =
        s ++ (pre.flatten ++ ((finishedType ++ bint_to_bytes 32 3) ++ v)) := by
      simp [List.append_assoc]
    rw [hassoc, processPlaindata_cons_nonfin cr ctx hs.1 hs.2 _ false,
      ih (ctx.append_message s) hpre']
    have hget : (ctx.append_message s).get_messages ++ pre.flatten =
        ctx.get_messages ++ (s :: pre).flatten := by
      simp [TLSContext.append_message, TLSContext.get_messages, List.append_assoc]
    have hshs : (ctx.append_message s).server_hs_traffic_secret =
        ctx.server_hs_traffic_secret := rfl
    rw [hget, hshs]
    rfl

/-- Witness for C2 at a concrete record: an EncryptedExtensions segment
followed by a valid Finished is accepted. -/
theorem c2_witness :
    processPlaindata crD ctxW
      (([[8, 0, 0, 0]] : List Bytes).flatten ++
        ((finishedType ++ bint_to_bytes 32 3) ++ List.replicate 32 0)) false =
      .ok ((([[8, 0, 0, 0]] : List Bytes).foldl TLSContext.append_message ctxW).append_message
        ((finishedType ++ bint_to_bytes 32 3) ++ List.replicate 32 0), true) := by
  have h := c2_finished_verification crD ctxW [[8, 0, 0, 0]] (by decide)
    (List.replicate 32 0) (by decide)
  rw [if_pos (by decide)] at h
  exact h

/-- C3 counterexample: after `send_finished` the transcript is unchanged
— its last message is still `[1]`, not the client Finished — so the
claim that the Finished body is appended before sending is false. -/
theorem c3_counterexample :
    (send_finished_step crD encD ctxEx).1.messages = [[1]] ∧
    ([1] : Bytes) ≠ finish_message crD ctxEx := by
  exact ⟨rfl, by decide⟩

/-- C3 amended: `send_finished` computes the Finished message over the
current transcript and sends it encrypted, but never appends it — the
transcript is unchanged. -/
theorem c3_no_append_on_send_finished (cr : Crypto) (enc : Bytes → Bytes → Bytes)
    (ctx : TLSContext) :
    (send_finished_step cr enc ctx).1.messages = ctx.messages ∧
    (send_finished_step cr enc ctx).2 =
      encrypted_app_data enc (finish_message cr ctx) handshakeCT :=
  ⟨rfl, rfl⟩

/-- C4: for every record the client sends, the AEAD plaintext is the
content, the true content-type byte, then zero padding to the next
16-byte boundary; the AAD is exactly the 5-byte outer header; and the
outer header is application_data(23) || 0x0303 || uint16 of the
ciphertext-plus-tag length.  The tinytls13 `send` is the same
construction. -/
theorem c4_record_shape (enc : Bytes → Bytes → Bytes)
    (hlen : ∀ p a, (enc p a).length = p.length + 16) (data ct : Bytes) :
    encrypted_app_data enc data ct =
      recordHdr ((innerPlain data ct).length + 16) ++
        enc (innerPlain data ct) (recordHdr ((innerPlain data ct).length + 16)) ∧
    innerPlain data ct = (data ++ ct) ++ List.replicate ((16 - (data ++ ct).length % 16) % 16) 0 ∧
    (innerPlain data ct).length % 16 = 0 ∧
    (recordHdr ((innerPlain data ct).length + 16)).length = 5 ∧
    tinytls13_send enc data = encrypted_app_data enc data application_dataCT := by
  refine ⟨ead_shape enc hlen data ct, rfl, ?_, ?_, rfl⟩
  · simp only [innerPlain, pad16, List.length_append, List.length_replicate]
    omega
  · simp [recordHdr, bint_to_bytes, application_dataCT, TLS12]

/-- Witness for C4 at concrete data. -/
theorem c4_witness :
    encrypted_app_data encD [1, 2, 3] [23] =
      recordHdr ((innerPlain [1, 2, 3] [23]).length + 16) ++
        encD (innerPlain [1, 2, 3] [23]) (recordHdr ((innerPlain [1, 2, 3] [23]).length + 16)) ∧
    innerPlain [1, 2, 3] [23] =
      (([1, 2, 3] : Bytes) ++ [23]) ++
        List.replicate ((16 - (([1, 2, 3] : Bytes) ++ [23]).length % 16) % 16) 0 ∧
    (innerPlain [1, 2, 3] [23]).length % 16 = 0 ∧
    (recordHdr ((innerPlain [1, 2, 3] [23]).length + 16)).length = 5 ∧
    tinytls13_send encD [1, 2, 3] = encrypted_app_data encD [1, 2, 3] application_dataCT :=
  c4_record_shape encD (fun p a => by simp [encD]) [1, 2, 3] [23]

/-- C6 counterexample: the alert body the source sends is `[0x02, 0x00]`
— level byte 0x02, not the claimed warning level 0x01. -/
theorem c6_counterexample : alert_message = [2, 0] ∧ alert_message ≠ [1, 0] := by
  exact ⟨rfl, by decide⟩

/-- C6 amended: closing sends a close_notify alert whose two-byte body is
the level byte 0x02 followed by description 0x00, encrypted as an
application-data record with the client-to-server application AEAD (the
`enc` argument stands for `ctx.client_app_data_crypto`, the AEAD the
source passes); the tinytls13 `send_alert` is the same construction. -/
theorem c6_close_alert (enc : Bytes → Bytes → Bytes)
    (hlen : ∀ p a, (enc p a).length = p.length + 16) :
    alert_message = [2] ++ close_notify ∧
    send_alert_record enc =
      recordHdr ((innerPlain alert_message alertCT).length + 16) ++
        enc (innerPlain alert_message alertCT)
          (recordHdr ((innerPlain alert_message alertCT).length + 16)) ∧
    tinytls13_send_alert enc = send_alert_record enc :=
  ⟨rfl, ead_shape enc hlen alert_message alertCT, rfl⟩

/-- Witness for C6 with the transparent AEAD. -/
theorem c6_witness :
    send_alert_record encD =
      recordHdr ((innerPlain alert_message alertCT).length + 16) ++
        encD (innerPlain alert_message alertCT)
          (recordHdr ((innerPlain alert_message alertCT).length + 16)) :=
  (c6_close_alert encD (fun p a => by simp [encD])).2.1

/-- C7: the tinytls13 `recv` ignores its length argument — called with
`ln = 1` on a record whose plaintext is 4 bytes, it returns all 4 bytes
and buffers nothing, contradicting the claimed at-most-`n` buffered
semantics (which `tinytls/__init__.py` does implement). -/
theorem c7_recv_ignores_length :
    tinytls13_recv decD [([23, 3, 3, 0, 20], [97, 98, 99, 100])] 1 =
      .ok ([97, 98, 99, 100], []) ∧
    ¬ ([97, 98, 99, 100] : Bytes).length ≤ 1 :=
  ⟨rfl, by decide⟩

/-- C9 counterexample: a segment declaring a 16-byte body with only one
byte present is silently accepted — the loop returns `ok` and appends
the 5 truncated bytes to the transcript instead of raising. -/
theorem c9_counterexample :
    processPlaindata crD (TLSContext.init []) [11, 0, 0, 16, 170] false =
      .ok ((TLSContext.init []).append_message [11, 0, 0, 16, 170], false) ∧
    ([11, 0, 0, 16, 170] : Bytes).length <
      bytes_to_bint ((([11, 0, 0, 16, 170] : Bytes).drop 1).take 3) + 4 :=
  ⟨rfl, by decide⟩

/-- C9 amended: a truncated non-Finished message — declared length
beyond the bytes remaining — is silently accepted: the implementation
appends the short segment (all remaining bytes) to the transcript and
returns without error. -/
theorem c9_truncated_accepted (cr : Crypto) (ctx : TLSContext) (pd : Bytes) (fin : Bool)
    (h1 : pd ≠ []) (h2 : pd.take 1 ≠ finishedType)
    (h3 : pd.length < bytes_to_bint ((pd.drop 1).take 3) + 4) :
    processPlaindata cr ctx pd fin = .ok (ctx.append_message pd, fin) := by
  cases pd with
  | nil => exact absurd rfl h1
  | cons b bs =>
    show processPlaindataF cr (bs.length + 1) ctx (b :: bs) fin = _
    rw [processPlaindataF]
    have hseg : segOf (b :: bs) = b :: bs := by
      rw [segOf]
      exact List.take_of_length_le (by simpa using Nat.le_of_lt h3)
    have hrest : restOf (b :: bs) = [] := by
      rw [restOf]
      exact List.drop_eq_nil_of_le (by simpa using Nat.le_of_lt h3)
    rw [hseg, hrest, if_neg h2, processPlaindataF_nil]

/-- Witness for C9's amended statement at a concrete truncated
certificate fragment. -/
theorem c9_witness :
    processPlaindata crD (TLSContext.init []) [8, 0, 0, 200, 1, 2] false =
      .ok ((TLSContext.init []).append_message [8, 0, 0, 200, 1, 2], false) :=
  c9_truncated_accepted crD (TLSContext.init []) [8, 0, 0, 200, 1, 2] false
    (by decide) (by decide) (by decide)

/-- C10: with an empty buffer, a record decrypting to an empty plaintext
makes `recv` return the empty byte string even though the transport has
not reached end-of-stream — the remaining records stay available. -/
theorem c10_empty_record_recv (dec : Bytes → Bytes → Option (Bytes × Nat)) (st : RecvState)
    (ln : Nat) (head message : Bytes) (rest : List (Bytes × Bytes)) (ct : Nat)
    (h1 : st.read_buf = []) (h2 : st.incoming = (head, message) :: rest)
    (h3 : dec message head = some ([], ct)) :
    tinytls_recv dec st ln = .ok ([], ⟨[], rest⟩) := by
  unfold tinytls_recv
  rw [if_pos h1]
  simp [h2, h3]

/-- Witness for C10 at a concrete state. -/
theorem c10_witness :
    tinytls_recv decD stW 5 = .ok ([], ⟨[], [([23, 3, 3, 0, 20], [97])]⟩) :=
  c10_empty_record_recv decD stW 5 [23, 3, 3, 0, 16] [] [([23, 3, 3, 0, 20], [97])] 22
    rfl rfl rfl

/-- C8: during the post-ServerHello loop (1) every ChangeCipherSpec
record is skipped with no state change at all; (2) a processed plaintext
adds exactly its segments to the transcript and changes nothing else;
(3) the segments partition the plaintext — no record header or other
bytes are added; and (4) after any successfully processed sequence of
records the transcript is the prior transcript followed exactly by the
segments of the decrypted non-ChangeCipherSpec records, in order. -/
theorem c8_transcript_invariant :
    (∀ (cr : Crypto) (dec : Bytes → Bytes → Option (Bytes × Nat)) (ctx : TLSContext)
      (head body : Bytes) (rest : List (Bytes × Bytes)),
      head.take 1 = change_cipher_specCT →
      server_handshake_loop cr dec ctx ((head, body) :: rest) false =
        server_handshake_loop cr dec ctx rest false) ∧
    (∀ (cr : Crypto) (ctx : TLSContext) (pd : Bytes) (fin : Bool) (ctx' : TLSContext)
      (fin' : Bool),
      processPlaindata cr ctx pd fin = .ok (ctx', fin') →
      ctx' = { ctx with messages := ctx.messages ++ splitSegs pd }) ∧
    (∀ pd : Bytes, (splitSegs pd).flatten = pd) ∧
    (∀ (cr : Crypto) (dec : Bytes → Bytes → Option (Bytes × Nat))
      (records : List (Bytes × Bytes)) (ctx : TLSContext) (fin : Bool) (ctx' : TLSContext)
      (rest' : List (Bytes × Bytes)),
      server_handshake_loop cr dec ctx records fin = .ok (ctx', rest') →
      ∃ pds : List Bytes,
        ctx' = { ctx with messages := ctx.messages ++ (pds.map splitSegs).flatten } ∧
        ∀ pd ∈ pds, ∃ hd msg ct, (hd, msg) ∈ records ∧ hd.take 1 ≠ change_cipher_specCT ∧
          dec msg hd = some (pd, ct)) := by
  refine ⟨?_, processPlaindata_ok_shape, splitSegs_flatten, server_handshake_loop_ok_shape⟩
  intro cr dec ctx head body rest h
  rw [loop_cons_false, if_pos h]

/-- Witness for C8: a concrete ChangeCipherSpec record is skipped, and a
concrete processed plaintext extends the transcript by its segments. -/
theorem c8_witness :
    (server_handshake_loop crD decD (TLSContext.init []) [([20, 3, 3], [0])] false =
      server_handshake_loop crD decD (TLSContext.init []) [] false) ∧
    (TLSContext.init []).append_message [8, 0, 0, 0] =
      { TLSContext.init [] with
        messages := (TLSContext.init []).messages ++ splitSegs [8, 0, 0, 0] } := by
  constructor
  · exact c8_transcript_invariant.1 crD decD (TLSContext.init []) [20, 3, 3] [0] [] (by decide)
  · exact c8_transcript_invariant.2.1 crD (TLSContext.init []) [8, 0, 0, 0] false
      ((TLSContext.init []).append_message [8, 0, 0, 0]) false rfl

/-- A successful `wrap_socket_run` decomposes into a successful
ServerHello step followed by a successful handshake loop and the final
application key schedule. -/
theorem wrap_socket_run_ok_decomp (cr : Crypto) (mult : Bytes → Bytes → Bytes)
    (parseSH : Bytes → Bytes) (dec : Bytes → Bytes → Option (Bytes × Nat))
    (priv ch : Bytes) (net : NetInput) (ctxF : TLSContext) (rest : List (Bytes × Bytes))
    (h : wrap_socket_run cr mult parseSH dec priv ch net = .ok (ctxF, rest)) :
    ∃ ctx3 : TLSContext,
      server_handshake_loop cr dec (ctx2Of cr mult parseSH priv ch net.shBody)
        net.hsRecords false = .ok (ctx3, rest) ∧
      ctxF = ctx3.key_schedule_in_app_data cr := by
  unfold wrap_socket_run at h
  cases hsh : server_hello_step cr mult parseSH net.shHead net.shBody
      ((TLSContext.init priv).append_message ch) with
  | error e =>
    simp only [hsh] at h
    exact Except.noConfusion h
  | ok ctx2 =>
    simp only [hsh] at h
    have hctx2 := server_hello_step_ok cr mult parseSH net.shHead net.shBody _ _ hsh
    subst hctx2
    cases hloop : server_handshake_loop cr dec (ctx2Of cr mult parseSH priv ch net.shBody)
        net.hsRecords false with
    | error e =>
      unfold ctx2Of at hloop
      simp only [hloop] at h
      exact Except.noConfusion h
    | ok p =>
      obtain ⟨ctx3, r3⟩ := p
      have hloop' := hloop
      unfold ctx2Of at hloop'
      simp only [hloop'] at h
      obtain ⟨h1, h2⟩ := by simpa using h
      subst h2
      exact ⟨ctx3, rfl, h1.symm⟩

/-- C5 counterexample: at context init no early secret has been
assigned, so `early_secret = HKDF-Extract(0^32, 0^32)` is not performed
at context init (it is performed by `key_schedule_in_handshake`). -/
theorem c5_counterexample :
    (TLSContext.init []).early_secret = none ∧
    (TLSContext.init []).early_secret ≠ some (early_secret_v crD) :=
  ⟨rfl, by decide⟩

/-- C5 amended: the chain early_secret = HKDF-Extract(0^32, 0^32),
handshake_secret = HKDF-Extract(Derive-Secret(early_secret, "derived",
""), shared_secret), master_secret =
HKDF-Extract(Derive-Secret(handshake_secret, "derived", ""), 0^32), with
HKDF-Extract(salt, ikm) = HMAC(salt, ikm), holds, and the three secrets
are assigned exactly once and in this order during the handshake — but
the early secret is computed at the start of `key_schedule_in_handshake`
(on ServerHello processing), not at context init, where all three are
still unassigned. -/
theorem c5_key_schedule_chain :
    (∀ priv : Bytes, (TLSContext.init priv).early_secret = none ∧
      (TLSContext.init priv).handshake_secret = none ∧
      (TLSContext.init priv).master_secret = none) ∧
    (∀ (cr : Crypto) (ctx : TLSContext),
      (ctx.key_schedule_in_handshake cr).early_secret = some (early_secret_v cr) ∧
      (ctx.key_schedule_in_handshake cr).handshake_secret =
        some (cr.hmac (derive_secret cr (early_secret_v cr) derived_label [])
          (ctx.shared_key.getD [])) ∧
      (ctx.key_schedule_in_handshake cr).master_secret = ctx.master_secret) ∧
    (∀ (cr : Crypto) (ctx : TLSContext),
      (ctx.key_schedule_in_app_data cr).master_secret =
        some (cr.hmac (derive_secret cr (ctx.handshake_secret.getD []) derived_label []) Z32) ∧
      (ctx.key_schedule_in_app_data cr).early_secret = ctx.early_secret ∧
      (ctx.key_schedule_in_app_data cr).handshake_secret = ctx.handshake_secret) ∧
    (∀ (cr : Crypto) (mult : Bytes → Bytes → Bytes) (parseSH : Bytes → Bytes)
      (dec : Bytes → Bytes → Option (Bytes × Nat)) (priv ch : Bytes) (net : NetInput)
      (ctxF : TLSContext) (rest : List (Bytes × Bytes)),
      wrap_socket_run cr mult parseSH dec priv ch net = .ok (ctxF, rest) →
      ctxF.early_secret = some (early_secret_v cr) ∧
      ctxF.handshake_secret = some (handshake_secret_v cr (mult priv (parseSH net.shBody))) ∧
      ctxF.master_secret = some (master_secret_v cr (mult priv (parseSH net.shBody)))) := by
  refine ⟨fun priv => ⟨rfl, rfl, rfl⟩, fun cr ctx => ⟨rfl, rfl, rfl⟩,
    fun cr ctx => ⟨rfl, rfl, rfl⟩, ?_⟩
  intro cr mult parseSH dec priv ch net ctxF rest h
  obtain ⟨ctx3, hloop, hF⟩ := wrap_socket_run_ok_decomp cr mult parseSH dec priv ch net ctxF rest h
  obtain ⟨pds, hctx3, _⟩ :=
    server_handshake_loop_ok_shape cr dec net.hsRecords _ false ctx3 rest hloop
  subst hF
  subst hctx3
  exact ⟨rfl, rfl, rfl⟩

/-- Witness for C5's run conjunct at the conforming concrete run. -/
theorem c5_witness :
    ctxFD.early_secret = some (early_secret_v crD) ∧
    ctxFD.handshake_secret = some (handshake_secret_v crD (multD [] (parseD netD.shBody))) ∧
    ctxFD.master_secret = some (master_secret_v crD (multD [] (parseD netD.shBody))) :=
  c5_key_schedule_chain.2.2.2 crD multD parseD decD [] chD netD ctxFD [] rfl

/-- C1 counterexample: in a run whose Finished record carries a further
handshake segment after the Finished, the transcript at the moment of
the application-data key schedule — the snapshot `get_messages` that
`key_schedule_in_app_data` derives `c ap traffic`/`s ap traffic` from —
extends past the server Finished, so the snapshot is not exactly the
messages through the server Finished. -/
theorem c1_counterexample :
    (match wrap_socket_run crD multD parseD decD [] chD netD2 with
      | .ok p => p.1.get_messages
      | .error _ => []) = chD ++ shD ++ finSegD ++ [8, 0, 0, 0] ∧
    chD ++ shD ++ finSegD ++ [8, 0, 0, 0] ≠ chD ++ shD ++ finSegD := by
  exact ⟨by decide, by decide⟩

/-- C1 amended: the snapshot for `c hs traffic`/`s hs traffic` is always
exactly ClientHello ++ ServerHello; the snapshot for
`c ap traffic`/`s ap traffic` is the final transcript, which is
ClientHello ++ ServerHello followed by the concatenation of the
decrypted handshake plaintexts processed by the loop — exactly through
the server Finished when the Finished is the last segment of its record
(the conforming case), but any segments after the Finished in the same
record are included too. -/
theorem c1_transcript_snapshots :
    (∀ (cr : Crypto) (mult : Bytes → Bytes → Bytes) (parseSH : Bytes → Bytes)
      (head msg : Bytes) (ctx ctx' : TLSContext),
      server_hello_step cr mult parseSH head msg ctx = .ok ctx' →
      ctx'.client_hs_traffic_secret = some (derive_secret cr
        (handshake_secret_v cr (mult ctx.client_private (parseSH msg))) c_hs_label
        (ctx.get_messages ++ msg)) ∧
      ctx'.server_hs_traffic_secret = some (derive_secret cr
        (handshake_secret_v cr (mult ctx.client_private (parseSH msg))) s_hs_label
        (ctx.get_messages ++ msg))) ∧
    (∀ (cr : Crypto) (mult : Bytes → Bytes → Bytes) (parseSH : Bytes → Bytes)
      (dec : Bytes → Bytes → Option (Bytes × Nat)) (priv ch : Bytes) (net : NetInput)
      (ctxF : TLSContext) (rest : List (Bytes × Bytes)),
      wrap_socket_run cr mult parseSH dec priv ch net = .ok (ctxF, rest) →
      ctxF.client_hs_traffic_secret = some (derive_secret cr
        (handshake_secret_v cr (mult priv (parseSH net.shBody))) c_hs_label
        (ch ++ net.shBody)) ∧
      ctxF.server_hs_traffic_secret = some (derive_secret cr
        (handshake_secret_v cr (mult priv (parseSH net.shBody))) s_hs_label
        (ch ++ net.shBody)) ∧
      ctxF.client_app_traffic_secret = some (derive_secret cr
        (master_secret_v cr (mult priv (parseSH net.shBody))) c_ap_label
        ctxF.get_messages) ∧
      ctxF.server_app_traffic_secret = some (derive_secret cr
        (master_secret_v cr (mult priv (parseSH net.shBody))) s_ap_label
        ctxF.get_messages) ∧
      ∃ pds : List Bytes, ctxF.get_messages = ch ++ net.shBody ++ pds.flatten) ∧
    (∀ (cr : Crypto) (mult : Bytes → Bytes → Bytes) (parseSH : Bytes → Bytes)
      (dec : Bytes → Bytes → Option (Bytes × Nat)) (priv ch : Bytes) (net : NetInput)
      (hd msgR pd : Bytes) (ct : Nat) (ctxF : TLSContext) (rest : List (Bytes × Bytes)),
      wrap_socket_run cr mult parseSH dec priv ch net = .ok (ctxF, rest) →
      net.hsRecords = [(hd, msgR)] → dec msgR hd = some (pd, ct) → segWF pd →
      ctxF.get_messages = ch ++ net.shBody ++ pd) := by
  refine ⟨?_, ?_, ?_⟩
  · intro cr mult parseSH head msg ctx ctx' h
    have hc := server_hello_step_ok cr mult parseSH head msg ctx ctx' h
    subst hc
    refine ⟨?_, ?_⟩ <;>
      simp [TLSContext.key_schedule_in_handshake, TLSContext.set_key_exchange,
        TLSContext.append_message, TLSContext.get_messages, handshake_secret_v, early_secret_v]
  · intro cr mult parseSH dec priv ch net ctxF rest h
    obtain ⟨ctx3, hloop, hF⟩ :=
      wrap_socket_run_ok_decomp cr mult parseSH dec priv ch net ctxF rest h
    obtain ⟨pds, hctx3, _⟩ :=
      server_handshake_loop_ok_shape cr dec net.hsRecords _ false ctx3 rest hloop
    subst hF
    subst hctx3
    refine ⟨?_, ?_, rfl, rfl, ⟨pds, ?_⟩⟩
    · simp [TLSContext.key_schedule_in_app_data, ctx2Of, TLSContext.key_schedule_in_handshake,
        TLSContext.set_key_exchange, TLSContext.append_message, TLSContext.init,
        TLSContext.get_messages, handshake_secret_v, early_secret_v]
    · simp [TLSContext.key_schedule_in_app_data, ctx2Of, TLSContext.key_schedule_in_handshake,
        TLSContext.set_key_exchange, TLSContext.append_message, TLSContext.init,
        TLSContext.get_messages, handshake_secret_v, early_secret_v]
    · simp [TLSContext.key_schedule_in_app_data, ctx2Of, TLSContext.key_schedule_in_handshake,
        TLSContext.set_key_exchange, TLSContext.append_message, TLSContext.init,
        TLSContext.get_messages, flatten_map_splitSegs, List.append_assoc]
  · intro cr mult parseSH dec priv ch net hd msgR pd ct ctxF rest h hrec hdec hWF
    obtain ⟨ctx3, hloop, hF⟩ :=
      wrap_socket_run_ok_decomp cr mult parseSH dec priv ch net ctxF rest h
    rw [hrec, loop_cons_false] at hloop
    by_cases hccs : hd.take 1 = change_cipher_specCT
    · rw [if_pos hccs, loop_nil_false] at hloop
      exact Except.noConfusion hloop
    · rw [if_neg hccs] at hloop
      by_cases happ : hd.take 3 = application_dataCT ++ TLS12
      · rw [if_pos happ] at hloop
        simp only [hdec] at hloop
        cases hpp : processPlaindata cr (ctx2Of cr mult parseSH priv ch net.shBody) pd false with
        | error e =>
          simp only [hpp] at hloop
          exact Except.noConfusion hloop
        | ok p =>
          obtain ⟨ctxm, fin'⟩ := p
          simp only [hpp] at hloop
          cases fin' with
          | false =>
            rw [loop_nil_false] at hloop
            exact Except.noConfusion hloop
          | true =>
            rw [loop_true] at hloop
            obtain ⟨hm, _⟩ := by simpa using hloop
            have hctxm := processPlaindata_ok_shape cr _ pd false ctxm true hpp
            rw [splitSegs_of_segWF hWF] at hctxm
            rw [← hm, hctxm] at hF
            subst hF
            simp [TLSContext.key_schedule_in_app_data, ctx2Of,
              TLSContext.key_schedule_in_handshake, TLSContext.set_key_exchange,
              TLSContext.append_message, TLSContext.init, TLSContext.get_messages,
              List.append_assoc]
      · rw [if_neg happ] at hloop
        exact Except.noConfusion hloop

/-- Witness for C1's run conjunct at the conforming concrete run. -/
theorem c1_witness :
    ctxFD.client_hs_traffic_secret = some (derive_secret crD
      (handshake_secret_v crD (multD [] (parseD netD.shBody))) c_hs_label
      (chD ++ netD.shBody)) :=
  (c1_transcript_snapshots.2.1 crD multD parseD decD [] chD netD ctxFD [] rfl).1

end TinyTLS
